import Mathlib

/-!
Shallow embedding of the `cc-discussion` frontend room-state reducer
(`src/frontend/src/hooks/useRoomWebSocket.ts`) and of the moderator message
input (`MessageInput.handleSend`), together with theorems settling the
specification claims about them.

The reducer is the `switch (message.type)` body of `ws.onmessage`: each case
maps the previous `RoomWebSocketState` to the next one.  Side effects that do
not touch the React state (console logging, the pong reply on `ping`) are
dropped; the wall-clock timestamp `new Date().toISOString()` is passed in as
an explicit `now : String` argument.  The mutable ref `messageIdCounter` is
carried inside the state as `msgCounter`.
-/

namespace CCDiscussion

/-- Room lifecycle status, mirroring the union type
`'waiting' | 'active' | 'paused' | 'completed'`. -/
inductive Status where
  | waiting
  | active
  | paused
  | completed
deriving DecidableEq, Repr

/-- Mirrors the `Message` interface of `useRoomWebSocket.ts`. -/
structure Message where
  id : Int
  participant_id : Option Int
  role : String
  content : String
  turn_number : Int
  created_at : String
deriving DecidableEq, Repr

/-- Mirrors the `StreamingContent` interface. -/
structure StreamingContent where
  participantId : Int
  content : String
deriving DecidableEq, Repr

/-- Mirrors the `BackgroundActivity` interface. -/
structure BackgroundActivity where
  participantId : Int
  participantName : String
  activity : String
  timestamp : String
deriving DecidableEq, Repr

/-- Mirrors the `PreparationState` interface. -/
structure PreparationState where
  participantId : Int
  participantName : String
  isComplete : Bool
  notesPreview : Option String
deriving DecidableEq, Repr

/-- Mirrors `RoomWebSocketState`; `preparingParticipants` is the JS `Map`
modelled as an association list in insertion order, and `msgCounter` is the
`messageIdCounter` ref. -/
structure RoomWebSocketState where
  messages : List Message
  status : Status
  currentTurn : Int
  maxTurns : Int
  isConnected : Bool
  streamingContent : Option StreamingContent
  preparingParticipants : List (Int × PreparationState)
  backgroundActivities : List BackgroundActivity
  msgCounter : Int
deriving DecidableEq, Repr

/-- The initial state passed to `useState` (with `messageIdCounter` starting
at 1000). -/
def initState : RoomWebSocketState :=
  { messages := []
    status := .waiting
    currentTurn := 0
    maxTurns := 20
    isConnected := false
    streamingContent := none
    preparingParticipants := []
    backgroundActivities := []
    msgCounter := 1000 }

/-- JS `Map.set`: update in place if the key exists (keeping its insertion
position), otherwise append at the end. -/
def mapSet (m : List (Int × PreparationState)) (k : Int) (v : PreparationState) :
    List (Int × PreparationState) :=
  match m with
  | [] => [(k, v)]
  | (k0, v0) :: rest => if k0 = k then (k, v) :: rest else (k0, v0) :: mapSet rest k v

/-- JS `Map.get`. -/
def mapGet (m : List (Int × PreparationState)) (k : Int) : Option PreparationState :=
  match m with
  | [] => none
  | (k0, v0) :: rest => if k0 = k then some v0 else mapGet rest k

/-- JS `Array.prototype.slice(-k)`: the last `k` elements (the whole array
when it is shorter than `k`). -/
def sliceLast (k : Nat) (xs : List BackgroundActivity) : List BackgroundActivity :=
  xs.drop (xs.length - k)

/-- The tagged union of WebSocket events handled by the reducer, one
constructor per `case` of the `switch`, carrying exactly the payload fields
the handler reads.  `message_id` is `Option Int` because the server may omit
it (`message.message_id || messageIdCounter.current++`). -/
inductive WsEvent where
  | room_state (status : Status) (current_turn : Int) (max_turns : Int)
  | discussion_start
  | discussion_starting
  | turn_start (participant_id : Int)
  | text (participant_id : Int) (content : String)
  | tool_use (participant_id : Int) (tool : String) (input : String)
  | turn_complete (message_id : Option Int) (participant_id : Int) (turn_number : Int)
  | moderator_message (message_id : Option Int) (content : String) (turn_number : Int)
  | preparation_start (participant_id : Int) (participant_name : String)
  | preparation_complete (participant_id : Int) (notes_preview : String)
  | background_activity (participant_id : Int) (participant_name : String) (activity : String)
  | discussion_paused
  | discussion_complete (total_turns : Int)
  | error (content : String)
  | info (content : String)
  | ping
  | pong
  | unknown (t : String)
deriving DecidableEq, Repr

/-- `message.message_id || messageIdCounter.current++`: use the event's id
when it is present and truthy (nonzero), otherwise consume the counter.
Returns the chosen id together with the updated counter. -/
def resolveId (mid : Option Int) (ctr : Int) : Int × Int :=
  match mid with
  | some m => if m = 0 then (ctr, ctr + 1) else (m, ctr)
  | none => (ctr, ctr + 1)

/-- One step of the reducer: the `switch (message.type)` body of
`ws.onmessage`, as a pure function of the previous state, the event, and the
current wall-clock string `now`. -/
def handleEvent (s : RoomWebSocketState) (e : WsEvent) (now : String) :
    RoomWebSocketState :=
  match e with
  | .room_state st ct mt =>
      { s with status := st, currentTurn := ct, maxTurns := mt }
  | .discussion_start =>
      { s with status := .active }
  | .discussion_starting => s
  | .turn_start pid =>
      { s with streamingContent := some { participantId := pid, content := "" } }
  | .text _ c =>
      { s with streamingContent :=
          match s.streamingContent with
          | some sc => some { sc with content := sc.content ++ c }
          | none => none }
  | .tool_use _ _ _ => s
  | .turn_complete mid pid tn =>
      let idc := resolveId mid s.msgCounter
      let newMessage : Message :=
        { id := idc.1
          participant_id := some pid
          role := "participant"
          content := match s.streamingContent with | some sc => sc.content | none => ""
          turn_number := tn
          created_at := now }
      { s with currentTurn := tn
               streamingContent := none
               messages := s.messages ++ [newMessage]
               msgCounter := idc.2 }
  | .moderator_message mid c tn =>
      let idc := resolveId mid s.msgCounter
      let newMessage : Message :=
        { id := idc.1
          participant_id := none
          role := "moderator"
          content := c
          turn_number := tn
          created_at := now }
      { s with messages := s.messages ++ [newMessage], msgCounter := idc.2 }
  | .preparation_start pid pname =>
      let entry : PreparationState :=
        { participantId := pid, participantName := pname
          isComplete := false, notesPreview := none }
      { s with preparingParticipants := mapSet s.preparingParticipants pid entry }
  | .preparation_complete pid preview =>
      { s with preparingParticipants :=
          match mapGet s.preparingParticipants pid with
          | some existing =>
              mapSet s.preparingParticipants pid
                { existing with isComplete := true, notesPreview := some preview }
          | none => s.preparingParticipants }
  | .background_activity pid pname act =>
      let newActivity : BackgroundActivity :=
        { participantId := pid, participantName := pname
          activity := act, timestamp := now }
      { s with backgroundActivities :=
          sliceLast 10 (s.backgroundActivities ++ [newActivity]) }
  | .discussion_paused =>
      { s with status := .paused }
  | .discussion_complete tt =>
      { s with status := .completed
               currentTurn := tt
               preparingParticipants := []
               backgroundActivities := [] }
  | .error _ => s
  | .info _ => s
  | .ping => s
  | .pong => s
  | .unknown _ => s

/-- Processing a list of events in arrival order. -/
def handleEvents (s : RoomWebSocketState) (es : List WsEvent) (now : String) :
    RoomWebSocketState :=
  es.foldl (fun a e => handleEvent a e now) s

/-- Concatenation of text fragments in arrival order. -/
def concatFrags : List String → String
  | [] => ""
  | c :: cs => c ++ concatFrags cs

/-- JS `String.prototype.trim` on the underlying character list: strip
leading and trailing whitespace characters. -/
def trimChars (cs : List Char) : List Char :=
  ((cs.dropWhile fun c => c.isWhitespace).reverse.dropWhile fun c => c.isWhitespace).reverse

/-- JS `String.prototype.trim`, as used by `content.trim()` in
`MessageInput`. -/
def jsTrim (s : String) : String := ⟨trimChars s.data⟩

/-- `MessageInput.handleSend` (src/unnamed/part_002): trim the draft; when the
trimmed draft is non-empty and the input is not disabled, call `onSend` with
the trimmed value and clear the draft.  Returns the value passed to `onSend`
(or `none` when it is not invoked) together with the draft after the call. -/
def handleSend (content : String) (disabled : Bool) : Option String × String :=
  let trimmed := jsTrim content
  if trimmed ≠ "" ∧ disabled = false then (some trimmed, "") else (none, content)

/-- Modelled from the spec: the backend Turn Scheduler (not present under
src/) auto-emits `discussion_complete` carrying `total_turns == max_turns`
when `current_turn` reaches `max_turns` after a turn completes. -/
def autoCompleteEvent (maxTurns : Int) : WsEvent :=
  .discussion_complete maxTurns

/-- Well-formedness of a server event relative to the current state: every
turn value it carries lies between the state's `current_turn` and the
(possibly updated) `max_turns`. -/
def eventInBounds (s : RoomWebSocketState) : WsEvent → Prop
  | .room_state _ ct mt => s.currentTurn ≤ ct ∧ ct ≤ mt
  | .turn_complete _ _ tn => s.currentTurn ≤ tn ∧ tn ≤ s.maxTurns
  | .discussion_complete tt => s.currentTurn ≤ tt ∧ tt ≤ s.maxTurns
  | _ => True

/-- Events whose handler writes the `backgroundActivities` field. -/
def modifiesActivities : WsEvent → Bool
  | .background_activity _ _ _ => true
  | .discussion_complete _ => true
  | _ => false

/-! ### Basic unfolding lemmas for event processing -/

theorem handleEvents_nil (s : RoomWebSocketState) (now : String) :
    handleEvents s [] now = s := rfl

theorem handleEvents_cons (s : RoomWebSocketState) (e : WsEvent) (es : List WsEvent)
    (now : String) :
    handleEvents s (e :: es) now = handleEvents (handleEvent s e now) es now := rfl

/-! ### Claim theorems -/

/-- C7: processing an `error` event causes no state change — the status,
turn counter, message list, streaming buffer, preparation table and
background-activity list are all unchanged. -/
theorem error_event_no_state_change (s : RoomWebSocketState) (m now : String) :
    handleEvent s (.error m) now = s := rfl

/-- C8: a `text` event arriving while the streaming buffer is `none` (no open
turn) leaves the entire room state unchanged; the fragment is silently
discarded. -/
theorem text_without_open_turn_discarded (s : RoomWebSocketState) (pid : Int)
    (c now : String) (h : s.streamingContent = none) :
    handleEvent s (.text pid c) now = s := by
  cases s
  simp_all [handleEvent]

/-- Witness for C8 at a concrete input: the initial state has no streaming
buffer, and a stray `text` fragment leaves it unchanged. -/
theorem text_without_open_turn_discarded_witness :
    initState.streamingContent = none ∧
      handleEvent initState (.text 1 "stray") "" = initState :=
  ⟨rfl, text_without_open_turn_discarded initState 1 "stray" "" rfl⟩

/-- C5: applying the `discussion_start` transition to a state whose status is
already `active` yields an identical state (idempotence of `start`): no
change to `current_turn` or any other field. -/
theorem start_idempotent_when_active (s : RoomWebSocketState) (now : String)
    (h : s.status = Status.active) :
    handleEvent s .discussion_start now = s := by
  cases s
  simp_all [handleEvent]

/-- Witness for C5 at a concrete input: an already-active room is unchanged
by `discussion_start`. -/
theorem start_idempotent_when_active_witness :
    ({ initState with status := Status.active } : RoomWebSocketState).status = Status.active ∧
      handleEvent { initState with status := Status.active } .discussion_start "" =
        { initState with status := Status.active } :=
  ⟨rfl, start_idempotent_when_active { initState with status := Status.active } "" rfl⟩

/-- C3 counterexample: `completed` is not terminal in the reducer.  Starting
from the initial state, a `discussion_complete` event reaches status
`completed`, yet a subsequent `discussion_start` event moves the status back
to `active`. -/
theorem completed_not_terminal_counterexample :
    (handleEvents initState [.discussion_complete 5] "").status = Status.completed ∧
      (handleEvents initState [.discussion_complete 5, .discussion_start] "").status =
        Status.active :=
  ⟨rfl, rfl⟩

/-- C3 amended: the reducer applies `discussion_start` unconditionally — it
sets status to `active` from any prior status (including `completed`),
leaving every other field unchanged; the `start` control signal itself never
modifies client state. -/
theorem discussion_start_unconditionally_activates (s : RoomWebSocketState) (now : String) :
    handleEvent s .discussion_start now = { s with status := Status.active } := rfl

/-- C2 counterexample: the reducer does not enforce `current_turn ≤
max_turns` for arbitrary event streams — a single `turn_complete` event
carrying `turn_number = 21` over the initial state (`max_turns = 20`) drives
`current_turn` above `max_turns`. -/
theorem turn_counter_bound_counterexample :
    (handleEvents initState [.turn_complete none 1 21] "").maxTurns <
      (handleEvents initState [.turn_complete none 1 21] "").currentTurn := by
  decide

/-- C2 amended: the invariant is preserved step-wise for well-formed server
events.  If `0 ≤ current_turn ≤ max_turns` holds and the processed event's
turn values lie between the state's `current_turn` and the (possibly
updated) `max_turns`, then after the step `current_turn` has not decreased
and `0 ≤ current_turn ≤ max_turns` still holds. -/
theorem turn_counter_invariant_preserved (s : RoomWebSocketState) (e : WsEvent)
    (now : String) (h0 : 0 ≤ s.currentTurn) (h1 : s.currentTurn ≤ s.maxTurns)
    (h2 : eventInBounds s e) :
    s.currentTurn ≤ (handleEvent s e now).currentTurn ∧
      0 ≤ (handleEvent s e now).currentTurn ∧
      (handleEvent s e now).currentTurn ≤ (handleEvent s e now).maxTurns := by
  cases e <;> simp_all [handleEvent, eventInBounds] <;> omega

/-- Witness for C2 (amended) at a concrete input: processing a well-formed
`turn_complete` with `turn_number = 5` from the initial state keeps the
invariant. -/
theorem turn_counter_invariant_preserved_witness :
    (0 ≤ initState.currentTurn ∧ initState.currentTurn ≤ initState.maxTurns ∧
        eventInBounds initState (.turn_complete none 1 5)) ∧
      (initState.currentTurn ≤ (handleEvent initState (.turn_complete none 1 5) "").currentTurn ∧
        0 ≤ (handleEvent initState (.turn_complete none 1 5) "").currentTurn ∧
        (handleEvent initState (.turn_complete none 1 5) "").currentTurn ≤
          (handleEvent initState (.turn_complete none 1 5) "").maxTurns) :=
  ⟨⟨by decide, by decide, ⟨by decide, by decide⟩⟩,
    turn_counter_invariant_preserved initState (.turn_complete none 1 5) ""
      (by decide) (by decide) ⟨by decide, by decide⟩⟩

/-- C4: when a turn completes with `turn_number = max_turns` (so
`current_turn` reaches `max_turns`), processing the auto-emitted
`discussion_complete` event — modelled from the spec as carrying
`total_turns = max_turns` — sets status to `completed`, sets `current_turn`
to `total_turns = max_turns`, and empties both the preparation table and the
background-activity list. -/
theorem max_turns_auto_completion (s : RoomWebSocketState) (mid : Option Int)
    (pid : Int) (now : String) :
    (handleEvent s (.turn_complete mid pid s.maxTurns) now).currentTurn = s.maxTurns ∧
      (handleEvent (handleEvent s (.turn_complete mid pid s.maxTurns) now)
          (autoCompleteEvent s.maxTurns) now).status = Status.completed ∧
      (handleEvent (handleEvent s (.turn_complete mid pid s.maxTurns) now)
          (autoCompleteEvent s.maxTurns) now).currentTurn = s.maxTurns ∧
      (handleEvent (handleEvent s (.turn_complete mid pid s.maxTurns) now)
          (autoCompleteEvent s.maxTurns) now).preparingParticipants = [] ∧
      (handleEvent (handleEvent s (.turn_complete mid pid s.maxTurns) now)
          (autoCompleteEvent s.maxTurns) now).backgroundActivities = [] := by
  simp [handleEvent, autoCompleteEvent]

/-- C6: moderator messages are appended to the message list immediately and
independently of turn boundaries.  Processing `moderator_message` events for
"A" and then "B" from any state appends, in arrival order, two separate
entries with role `moderator`, each carrying its event's content and
turn_number ("A" is already appended after its own event). -/
theorem moderator_messages_appended (s : RoomWebSocketState) (midA midB : Option Int)
    (a b : String) (tnA tnB : Int) (now : String) :
    (handleEvent s (.moderator_message midA a tnA) now).messages =
        s.messages ++
          [{ id := (resolveId midA s.msgCounter).1
             participant_id := none
             role := "moderator"
             content := a
             turn_number := tnA
             created_at := now }] ∧
      (handleEvent (handleEvent s (.moderator_message midA a tnA) now)
          (.moderator_message midB b tnB) now).messages =
        s.messages ++
          [{ id := (resolveId midA s.msgCounter).1
             participant_id := none
             role := "moderator"
             content := a
             turn_number := tnA
             created_at := now },
           { id := (resolveId midB (resolveId midA s.msgCounter).2).1
             participant_id := none
             role := "moderator"
             content := b
             turn_number := tnB
             created_at := now }] := by
  simp [handleEvent]

/-- Processing a run of `text` events appends their fragments, in arrival
order, to an open streaming buffer; no other field of the state changes. -/
theorem handleEvents_text_frags (frs : List (Int × String)) (s : RoomWebSocketState)
    (p : Int) (acc now : String) (h : s.streamingContent = some ⟨p, acc⟩) :
    handleEvents s (frs.map fun q => WsEvent.text q.1 q.2) now =
      { s with streamingContent := some ⟨p, acc ++ concatFrags (frs.map Prod.snd)⟩ } := by
  induction frs generalizing s acc h with
  | nil =>
      simp only [List.map_nil, handleEvents_nil, concatFrags, String.append_empty]
      cases s
      simp_all
  | cons q rest ih =>
      have step : handleEvent s (WsEvent.text q.1 q.2) now =
          { s with streamingContent := some ⟨p, acc ++ q.2⟩ } := by
        simp [handleEvent, h]
      rw [List.map_cons, handleEvents_cons, step,
        ih { s with streamingContent := some ⟨p, acc ++ q.2⟩ } (acc ++ q.2) rfl]
      simp [concatFrags, String.append_assoc]

/-- C1: after a `turn_start` (which resets the streaming buffer to empty), a
run of `text` fragments, and a `turn_complete`, the recorded message's
content is the concatenation of the fragment payloads in arrival order, its
role is `participant` and its turn_number is the event's; it is appended to
the message list, `current_turn` becomes the event's turn_number, and the
streaming buffer is cleared. -/
theorem turn_complete_records_streamed_message (s : RoomWebSocketState) (pid : Int)
    (frs : List (Int × String)) (mid : Option Int) (cpid tn : Int) (now : String) :
    handleEvent
        (handleEvents (handleEvent s (.turn_start pid) now)
          (frs.map fun q => WsEvent.text q.1 q.2) now)
        (.turn_complete mid cpid tn) now =
      { s with
        currentTurn := tn
        streamingContent := none
        messages := s.messages ++
          [{ id := (resolveId mid s.msgCounter).1
             participant_id := some cpid
             role := "participant"
             content := concatFrags (frs.map Prod.snd)
             turn_number := tn
             created_at := now }]
        msgCounter := (resolveId mid s.msgCounter).2 } := by
  rw [show handleEvent s (.turn_start pid) now =
      { s with streamingContent := some ⟨pid, ""⟩ } from rfl,
    handleEvents_text_frags frs _ pid "" now rfl]
  simp [handleEvent, String.empty_append]

/-- `slice(-k)` returns at most `k` elements. -/
theorem sliceLast_length_le (k : Nat) (xs : List BackgroundActivity) :
    (sliceLast k xs).length ≤ k := by
  simp only [sliceLast, List.length_drop]
  omega

/-- One reducer step keeps the background-activity list at length at
most 10. -/
theorem activities_le_ten_step (s : RoomWebSocketState) (e : WsEvent) (now : String)
    (h : s.backgroundActivities.length ≤ 10) :
    (handleEvent s e now).backgroundActivities.length ≤ 10 := by
  cases e <;> first
    | exact h
    | exact sliceLast_length_le 10 _
    | simp [handleEvent]

/-- Any run of events from a state satisfying the bound keeps the
background-activity list at length at most 10. -/
theorem activities_le_ten_events (es : List WsEvent) (s : RoomWebSocketState)
    (now : String) (h : s.backgroundActivities.length ≤ 10) :
    (handleEvents s es now).backgroundActivities.length ≤ 10 := by
  induction es generalizing s h with
  | nil => exact h
  | cons e rest ih =>
      rw [handleEvents_cons]
      exact ih _ (activities_le_ten_step s e now h)

/-- C9: after processing any event sequence from the initial state, the
background-activity list holds at most 10 entries; a `background_activity`
event appends the new activity retaining only the 10 most recent (JS
`slice(-10)`); `discussion_complete` empties the list; and no other event
modifies it. -/
theorem background_activities_bounded :
    (∀ (es : List WsEvent) (now : String),
        (handleEvents initState es now).backgroundActivities.length ≤ 10) ∧
      (∀ (s : RoomWebSocketState) (pid : Int) (pname act now : String),
          (handleEvent s (.background_activity pid pname act) now).backgroundActivities =
            sliceLast 10 (s.backgroundActivities ++
              [{ participantId := pid, participantName := pname
                 activity := act, timestamp := now }])) ∧
      (∀ (s : RoomWebSocketState) (tt : Int) (now : String),
          (handleEvent s (.discussion_complete tt) now).backgroundActivities = []) ∧
      (∀ (s : RoomWebSocketState) (e : WsEvent) (now : String),
          modifiesActivities e = false →
            (handleEvent s e now).backgroundActivities = s.backgroundActivities) := by
  refine ⟨fun es now => activities_le_ten_events es initState now (by decide),
    fun s pid pname act now => rfl, fun s tt now => rfl, fun s e now h => ?_⟩
  cases e <;> simp_all [modifiesActivities, handleEvent]

/-- Witness for C9 at a concrete input: an `error` event does not modify the
background-activity list. -/
theorem background_activities_bounded_witness :
    modifiesActivities (WsEvent.error "boom") = false ∧
      (handleEvent initState (WsEvent.error "boom") "").backgroundActivities =
        initState.backgroundActivities :=
  ⟨rfl, background_activities_bounded.2.2.2 initState (WsEvent.error "boom") "" rfl⟩

/-! ### Moderator input (`MessageInput.handleSend`) -/

/-- The head of a trimmed character list is never whitespace. -/
theorem trimChars_head_not_whitespace (cs : List Char) (c : Char)
    (h : (trimChars cs).head? = some c) : c.isWhitespace = false := by
  unfold trimChars at h
  rw [List.head?_reverse] at h
  have hsuffix := List.dropWhile_suffix (l := (cs.dropWhile fun c => c.isWhitespace).reverse)
    (fun c => c.isWhitespace)
  obtain ⟨t, ht⟩ := hsuffix
  have hlast : ((cs.dropWhile fun c => c.isWhitespace).reverse).getLast? = some c := by
    rw [← ht, List.getLast?_append, h, Option.or_some]
  rw [List.getLast?_reverse] at hlast
  have := List.head?_dropWhile_not (fun c => c.isWhitespace) cs
  rw [hlast] at this
  exact this

/-- The last element of a trimmed character list is never whitespace. -/
theorem trimChars_getLast_not_whitespace (cs : List Char) (c : Char)
    (h : (trimChars cs).getLast? = some c) : c.isWhitespace = false := by
  unfold trimChars at h
  rw [List.getLast?_reverse] at h
  have := List.head?_dropWhile_not (fun c => c.isWhitespace)
    ((cs.dropWhile fun c => c.isWhitespace).reverse)
  rw [h] at this
  exact this

/-- C10: `handleSend` invokes `onSend` if and only if the whitespace-trimmed
draft is non-empty and the input is not disabled; the value passed to
`onSend` is exactly the trimmed draft — hence non-empty, with no leading and
no trailing whitespace character — and the draft is reset to empty
afterwards. -/
theorem message_input_send (content : String) (disabled : Bool) :
    ((handleSend content disabled).1 ≠ none ↔
        jsTrim content ≠ "" ∧ disabled = false) ∧
      (∀ v, (handleSend content disabled).1 = some v →
          v = jsTrim content ∧ v ≠ "" ∧
            (∀ c, v.data.head? = some c → c.isWhitespace = false) ∧
            (∀ c, v.data.getLast? = some c → c.isWhitespace = false) ∧
            (handleSend content disabled).2 = "") := by
  unfold handleSend
  by_cases h : jsTrim content ≠ "" ∧ disabled = false
  · rw [if_pos h]
    refine ⟨by simp [h], fun v hv => ?_⟩
    have hv2 : jsTrim content = v := by simpa using hv
    subst hv2
    exact ⟨rfl, h.1, fun c hc => trimChars_head_not_whitespace content.data c hc,
      fun c hc => trimChars_getLast_not_whitespace content.data c hc, rfl⟩
  · rw [if_neg h]
    simp [h]

/-- Witness for C10 at a concrete input: sending the draft `"  hi  "` while
enabled passes exactly `"hi"` to `onSend` and clears the draft. -/
theorem message_input_send_witness :
    (handleSend "  hi  " false).1 = some "hi" ∧
      ("hi" = jsTrim "  hi  " ∧ "hi" ≠ "" ∧
        (∀ c, ("hi").data.head? = some c → c.isWhitespace = false) ∧
        (∀ c, ("hi").data.getLast? = some c → c.isWhitespace = false) ∧
        (handleSend "  hi  " false).2 = "") :=
  ⟨rfl, (message_input_send "  hi  " false).2 "hi" rfl⟩

end CCDiscussion
